import Mathlib

/-!
Verification of the io_uring batch file reader (`src/read_files.c`).

A shallow embedding of the C program that reads a batch of files through an
io_uring submission/completion ring.  External collaborators (the kernel,
the filesystem, the allocator) are modelled as oracles passed in explicitly;
pure control flow and data flow are translated function by function from the
source:

* `RIOVec`            — the per-file request descriptor (`struct RIOVec`);
* `make_riovec`       — descriptor construction (open, fstat, malloc);
* `build_riovecs`     — the descriptor-construction loop in `main`,
                        instrumented with the list of paths actually attempted;
* `URing`, `io_uring_queue_init`, `prep_reads` — the submission stage
                        (`io_uring_get_sqe` + `io_uring_prep_read` + tagging);
* `CQE`, `reap_go`, `reap_reads` — the completion-drain stage, with the
                        kernel's completion stream supplied as an input list
                        and stderr/stdout reports collected in a log;
* `main_run`          — the whole pipeline of `main`, returning `some exit`
                        when the process terminates and `none` when the drain
                        loop blocks forever waiting for a completion that will
                        never arrive.
-/

/-- Model of `struct RIOVec`: one request descriptor.  The buffer pointer is modelled
by the size that was passed to `malloc` (`bufSize`); the descriptor only
exists in the model once allocation succeeded. -/
structure RIOVec where
  pathname : String
  fd : Int
  bufSize : Nat
  fOffset : Int
  fSize : Nat
  fOutBytes : Nat
deriving Repr, DecidableEq

/-- Filesystem / allocator oracle used by `make_riovec`:
`openFd p` is the return of `open(p, O_RDONLY)` (negative on failure),
`statSize fd` is `st.st_size` from a successful `fstat` (`none` = fstat
failed; sizes of regular files are non-negative, hence `Nat`),
`mallocOk sz` tells whether `malloc sz` returns a non-null pointer. -/
structure FSEnv where
  openFd : String → Int
  statSize : Int → Option Nat
  mallocOk : Nat → Bool

/-- Embedding of `make_riovec` (src/read_files.c:35–56): open the file read-only, fstat it,
allocate a buffer of exactly the file size, set `fOffset = 0` (read the whole
file), `fSize = st.st_size`, and the sentinel `fOutBytes = 0` ("set by cqe").
Returns `none` when any step fails (the C function returns 1). -/
def make_riovec (env : FSEnv) (pathname : String) : Option RIOVec :=
  let fd := env.openFd pathname
  if fd < 0 then none
  else
    match env.statSize fd with
    | none => none
    | some st_size =>
      if env.mallocOk st_size then
        some ⟨pathname, fd, st_size, 0, st_size, 0⟩
      else none

/-- The descriptor-construction loop in `main` (src/read_files.c:153–159),
starting at index `i`.  The first component records the paths on which
`make_riovec` was actually invoked (each one performs an `open`); on the
first failure the loop stops and `main` returns 1, modelled as
`.error index`. -/
def build_riovecs (env : FSEnv) : List String → Nat → List String × Except Nat (List RIOVec)
  | [], _ => ([], .ok [])
  | p :: ps, i =>
    match make_riovec env p with
    | none => ([p], .error i)
    | some rd =>
      let rest := build_riovecs env ps (i + 1)
      (p :: rest.1,
       match rest.2 with
       | .error k => .error k
       | .ok rds => .ok (rd :: rds))

/-- A submission-queue entry, as filled by `io_uring_prep_read` plus the
correlation tag stored in `sqe->user_data`.  The destination buffer address
is not representable; the read parameters and the tag are. -/
structure SQE where
  fd : Int
  nbytes : Nat
  offset : Int
  user_data : Nat
deriving Repr, DecidableEq

/-- The submission ring: a fixed capacity and the entries staged (obtained
via `io_uring_get_sqe`) but not yet submitted.  `io_uring_get_sqe` returns
null exactly when the submission queue is full, i.e. when the number of
staged entries has reached the capacity. -/
structure URing where
  capacity : Nat
  staged : List SQE
deriving Repr, DecidableEq

/-- Model of `io_uring_queue_init(entries, &ring, 0)` (success case): a fresh ring
whose submission queue holds at least `entries` slots.  (The kernel rounds
the capacity up to a power of two; we take exactly `entries`, the lower
bound, which is the case relevant to queue exhaustion.) -/
def io_uring_queue_init (entries : Nat) : URing := ⟨entries, []⟩

/-- The entries staged by the `prep_reads` loop for `files`, with correlation
tags `i, i+1, …` (`sqe->user_data = i`, src/read_files.c:83). -/
def entriesFrom (i : Nat) : List RIOVec → List SQE
  | [] => []
  | f :: fs => ⟨f.fd, f.fSize, f.fOffset, i⟩ :: entriesFrom (i + 1) fs

/-- The `prep_reads` loop (src/read_files.c:66–86) from index `i`: acquire one
sqe per file — failing with return code 1 if the queue is full — fill it with
the read parameters and tag it with the file's index.  Returns the ring after
staging together with the C return code. -/
def prep_go (ring : URing) : List RIOVec → Nat → URing × Nat
  | [], _ => (ring, 0)
  | f :: fs, i =>
    if ring.staged.length < ring.capacity then
      prep_go ⟨ring.capacity, ring.staged ++ [⟨f.fd, f.fSize, f.fOffset, i⟩]⟩ fs (i + 1)
    else (ring, 1)

/-- Embedding of `prep_reads(ring, files, num_files)`. -/
def prep_reads (ring : URing) (files : List RIOVec) : URing × Nat :=
  prep_go ring files 0

/-- A completion-queue event: `user_data` (echoed correlation tag, an
`unsigned long` in the C) and the signed result code `res`. -/
structure CQE where
  user_data : Nat
  res : Int
deriving Repr, DecidableEq

/-- What `reap_reads` prints while draining:  per-event success lines on
stdout and failure diagnostics on stderr. -/
inductive LogEntry where
  | waitErr (code : Int)
  | badTag (tag : Nat)
  | readFailed (index : Nat) (errno : Int)
  | readOk (bytes : Nat) (index : Nat)
deriving Repr, DecidableEq

/-- How the drain loop ends: `normal` is the C `return 0`, `fatal` the
C `return 1`, and `blocked` models `io_uring_wait_cqe` blocking forever
because fewer completions will arrive than the loop waits for. -/
inductive ReapExit where
  | normal
  | fatal
  | blocked
deriving Repr, DecidableEq

/-- Result of the drain loop: the descriptor array after the in-place
updates, the number of events consumed via `io_uring_cqe_seen`, the report
log, and how the loop ended. -/
structure ReapOut where
  files : List RIOVec
  seen : Nat
  log : List LogEntry
  exit : ReapExit
deriving Repr, DecidableEq

/-- The assignment `files[index].fOutBytes = (size_t)cqe->res` (src/read_files.c:110): in-place update of
one descriptor's outcome field. -/
def record_out : List RIOVec → Nat → Nat → List RIOVec
  | [], _, _ => []
  | f :: fs, 0, b => { f with fOutBytes := b } :: fs
  | f :: fs, i + 1, b => f :: record_out fs i b

/-- The body of `reap_reads` (src/read_files.c:88–117): iterate `remaining`
times; each iteration waits for one completion (`events` is the stream the
kernel delivers, `.error code` a failing `io_uring_wait_cqe`).  An exhausted
stream means the wait blocks forever.  For a delivered event: an out-of-range
tag (`index >= num_files`; the C's `index < 0` test on an `unsigned long` is
vacuous) returns 1, a negative `res` prints `strerror(-res)` and returns 1,
otherwise the byte count is recorded on `files[index]`, the success line is
printed, and the event is marked seen. -/
def reap_go (num_files : Nat) :
    Nat → List (Except Int CQE) → List RIOVec → Nat → List LogEntry → ReapOut
  | 0, _, files, seen, log => ⟨files, seen, log, .normal⟩
  | _ + 1, [], files, seen, log => ⟨files, seen, log, .blocked⟩
  | r + 1, ev :: evs, files, seen, log =>
    match ev with
    | .error code => ⟨files, seen, log ++ [.waitErr code], .fatal⟩
    | .ok cqe =>
      if cqe.user_data < num_files then
        if cqe.res < 0 then
          ⟨files, seen, log ++ [.readFailed cqe.user_data (-cqe.res)], .fatal⟩
        else
          reap_go num_files r evs
            (record_out files cqe.user_data cqe.res.toNat)
            (seen + 1)
            (log ++ [.readOk cqe.res.toNat cqe.user_data])
      else ⟨files, seen, log ++ [.badTag cqe.user_data], .fatal⟩

/-- Embedding of `reap_reads(ring, files, num_files)`: drain `num_files` completions. -/
def reap_reads (files : List RIOVec) (events : List (Except Int CQE))
    (num_files : Nat) : ReapOut :=
  reap_go num_files num_files events files 0 []

/-- The oracle environment for one run of `main`: the command-line paths
(`argv[1..]`), the results of the external calls, and the completion stream
the kernel will deliver. -/
structure Env where
  argPaths : List String
  ringInitRet : Int
  probeOk : Bool
  readSupported : Bool
  callocOk : Bool
  fs : FSEnv
  submitRet : Int
  events : List (Except Int CQE)

/-- Embedding of `main` (src/read_files.c:119–187): argument check, ring creation, probe
for `IORING_OP_READ`, calloc of the descriptor array, per-file
`make_riovec`, `prep_reads`, `io_uring_submit` (only `ret <= 0` is treated
as failure), `reap_reads`, teardown.  `some code` is the process exit code;
`none` means the drain loop blocked forever. -/
def main_run (env : Env) : Option Nat :=
  if env.argPaths.isEmpty then some 1
  else
    let num_files := env.argPaths.length
    if env.ringInitRet ≠ 0 then some 1
    else if ¬ (env.probeOk && env.readSupported) then some 1
    else if ¬ env.callocOk then some 1
    else
      match (build_riovecs env.fs env.argPaths 0).2 with
      | .error _ => some 1
      | .ok files =>
        if (prep_reads (io_uring_queue_init num_files) files).2 ≠ 0 then some 1
        else if env.submitRet ≤ 0 then some 1
        else
          match (reap_reads files env.events num_files).exit with
          | .normal => some 0
          | .fatal => some 1
          | .blocked => none

/-! Helper lemmas about the submission stage. -/

/-- When the staged entries plus the remaining files fit in the capacity,
the `prep_reads` loop succeeds and appends one tagged entry per file. -/
theorem prep_go_spec (files : List RIOVec) :
    ∀ (cap : Nat) (staged : List SQE) (i : Nat),
      staged.length + files.length ≤ cap →
      prep_go ⟨cap, staged⟩ files i = (⟨cap, staged ++ entriesFrom i files⟩, 0) := by
  induction files with
  | nil =>
    intro cap staged i _
    simp [prep_go, entriesFrom]
  | cons f fs ih =>
    intro cap staged i h
    have hlt : staged.length < cap := by
      simp only [List.length_cons] at h
      omega
    have hrec : (staged ++ [(⟨f.fd, f.fSize, f.fOffset, i⟩ : SQE)]).length + fs.length ≤ cap := by
      simp only [List.length_append, List.length_cons, List.length_nil] at h ⊢
      omega
    have hih := ih cap (staged ++ [(⟨f.fd, f.fSize, f.fOffset, i⟩ : SQE)]) (i + 1) hrec
    simp only [prep_go, hlt, if_pos, hih, entriesFrom]
    simp

/-- The correlation tags of the staged entries are consecutive indices. -/
theorem entriesFrom_map_user_data (files : List RIOVec) :
    ∀ i, (entriesFrom i files).map SQE.user_data = List.range' i files.length := by
  induction files with
  | nil => intro i; simp [entriesFrom]
  | cons f fs ih => intro i; simp [entriesFrom, List.range'_succ, ih]

/-! Helper lemmas about the outcome-recording assignment. -/

/-- Recording an outcome on descriptor `i` overwrites exactly its
`fOutBytes` field. -/
theorem record_out_getElem_self :
    ∀ (files : List RIOVec) (i b : Nat), i < files.length →
      (record_out files i b)[i]? = (files[i]?).map (fun f => { f with fOutBytes := b }) := by
  intro files
  induction files with
  | nil => intro i b h; simp at h
  | cons f fs ih =>
    intro i b h
    cases i with
    | zero => simp [record_out]
    | succ j =>
      simp only [record_out, List.getElem?_cons_succ]
      exact ih j b (by simpa using h)

/-- Recording an outcome on descriptor `i` leaves every other descriptor
untouched. -/
theorem record_out_getElem_ne :
    ∀ (files : List RIOVec) (i b j : Nat), j ≠ i →
      (record_out files i b)[j]? = files[j]? := by
  intro files
  induction files with
  | nil => intro i b j _; simp [record_out]
  | cons f fs ih =>
    intro i b j hne
    cases i with
    | zero =>
      cases j with
      | zero => exact absurd rfl hne
      | succ j' => simp [record_out]
    | succ i' =>
      cases j with
      | zero => simp [record_out]
      | succ j' =>
        simp only [record_out, List.getElem?_cons_succ]
        exact ih i' b j' (by omega)

/-! Helper lemmas about descriptor construction in `main`. -/

/-- A successful construction loop produces one descriptor per path. -/
theorem build_riovecs_ok_length (env : FSEnv) :
    ∀ (paths : List String) (i : Nat) (files : List RIOVec),
      (build_riovecs env paths i).2 = .ok files → files.length = paths.length := by
  intro paths
  induction paths with
  | nil =>
    intro i files h
    simp only [build_riovecs] at h
    cases h
    rfl
  | cons p ps ih =>
    intro i files h
    simp only [build_riovecs] at h
    cases hmk : make_riovec env p with
    | none => rw [hmk] at h; cases h
    | some rd =>
      rw [hmk] at h
      cases hrest : (build_riovecs env ps (i + 1)).2 with
      | error k => simp only [hrest] at h; cases h
      | ok rds =>
        simp only [hrest] at h
        cases h
        simp [ih (i + 1) rds hrest]

/-- If `open` fails on path `p` and every earlier descriptor constructs
successfully, the construction loop attempts exactly the paths up to and
including `p` and stops with the failing index. -/
theorem build_riovecs_open_fail (env : FSEnv) (p : String) (post : List String)
    (hopen : env.openFd p < 0) :
    ∀ (pre : List String) (i : Nat),
      (∀ q ∈ pre, ∃ rd, make_riovec env q = some rd) →
      build_riovecs env (pre ++ p :: post) i = (pre ++ [p], .error (i + pre.length)) := by
  have hfail : make_riovec env p = none := by
    unfold make_riovec
    simp [hopen]
  intro pre
  induction pre with
  | nil =>
    intro i _
    simp [build_riovecs, hfail]
  | cons q qs ih =>
    intro i hpre
    obtain ⟨rd, hq⟩ := hpre q (List.mem_cons_self q qs)
    have hqs : ∀ r ∈ qs, ∃ rd, make_riovec env r = some rd := by
      intro r hr
      exact hpre r (List.mem_cons_of_mem q hr)
    have hih := ih (i + 1) hqs
    simp only [List.cons_append, build_riovecs, hq, List.append_eq, hih]
    have harith : i + 1 + qs.length = i + (qs.length + 1) := by omega
    simp [harith]

/-! Claim theorems. -/

/-- Claim C4: for every batch of `n` descriptors staged into a ring of
sufficient capacity, the correlation tags assigned by `prep_reads` equal each
descriptor's index in the batch array (the tag list is `range n`), are
pairwise distinct, and each lies in `[0, n)`; and during drain the outcome of
a completion carrying tag `t` is written to descriptor `t` only, so each
completion is attributed to its originating descriptor regardless of arrival
order.  Tags are attached once at staging and never rewritten: the drain
stage reads them from the completion events and does not touch the ring. -/
theorem prep_assigns_index_tags (cap : Nat) (files : List RIOVec)
    (h : files.length ≤ cap) :
    (prep_reads ⟨cap, []⟩ files).2 = 0 ∧
    (prep_reads ⟨cap, []⟩ files).1.staged.map SQE.user_data = List.range files.length ∧
    ((prep_reads ⟨cap, []⟩ files).1.staged.map SQE.user_data).Nodup ∧
    (∀ t ∈ (prep_reads ⟨cap, []⟩ files).1.staged.map SQE.user_data, t < files.length) ∧
    (∀ (fls : List RIOVec) (t b j : Nat), j ≠ t →
      (record_out fls t b)[j]? = fls[j]?) := by
  have hspec := prep_go_spec files cap [] 0 (by simpa using h)
  have htags : (prep_reads ⟨cap, []⟩ files).1.staged.map SQE.user_data
      = List.range files.length := by
    simp [prep_reads, hspec, entriesFrom_map_user_data, List.range_eq_range']
  refine ⟨by simp [prep_reads, hspec], htags, ?_, ?_, ?_⟩
  · rw [htags]; exact List.nodup_range files.length
  · intro t ht; rw [htags] at ht; simpa using ht
  · intro fls t b j hj; exact record_out_getElem_ne fls t b j hj

/-- Witness for C4: a concrete batch of two descriptors in a ring of
capacity 2 receives tags `[0, 1]`. -/
theorem prep_assigns_index_tags_witness :
    (prep_reads ⟨2, []⟩ [⟨"a", 3, 5, 0, 5, 0⟩, ⟨"b", 4, 7, 0, 7, 0⟩]).2 = 0 ∧
    (prep_reads ⟨2, []⟩
      [⟨"a", 3, 5, 0, 5, 0⟩, ⟨"b", 4, 7, 0, 7, 0⟩]).1.staged.map SQE.user_data
      = List.range 2 :=
  ⟨(prep_assigns_index_tags 2 [⟨"a", 3, 5, 0, 5, 0⟩, ⟨"b", 4, 7, 0, 7, 0⟩] (by decide)).1,
   (prep_assigns_index_tags 2 [⟨"a", 3, 5, 0, 5, 0⟩, ⟨"b", 4, 7, 0, 7, 0⟩] (by decide)).2.1⟩

/-- Claim C9: `main` creates its ring with capacity `num_files` and the batch
it hands to `prep_reads` holds exactly one descriptor per command-line path,
so the `io_uring_get_sqe`-returns-null branch (`QueueFull`) in `prep_reads`
is unreachable for every batch `main` actually constructs: the prep loop
returns 0. -/
theorem main_prep_never_queue_full (env : Env) (files : List RIOVec)
    (hbuild : (build_riovecs env.fs env.argPaths 0).2 = .ok files) :
    (prep_reads (io_uring_queue_init env.argPaths.length) files).2 = 0 := by
  have hlen := build_riovecs_ok_length env.fs env.argPaths 0 files hbuild
  have hspec := prep_go_spec files env.argPaths.length [] 0 (by simp [hlen])
  simp [prep_reads, io_uring_queue_init, hspec]

/-- Witness for C9: one path, ring of capacity 1, prep succeeds. -/
theorem main_prep_never_queue_full_witness :
    (prep_reads (io_uring_queue_init 1) [⟨"w", 3, 2, 0, 2, 0⟩]).2 = 0 :=
  main_prep_never_queue_full
    ⟨["w"], 0, true, true, true, ⟨fun _ => 3, fun _ => some 2, fun _ => true⟩, 1, []⟩
    [⟨"w", 3, 2, 0, 2, 0⟩] rfl

/-- Claim C5: at any iteration of the drain loop, a completion event whose
correlation tag falls outside `[0, num_files)` makes the drain fail fatally
(the C `return 1`) after printing the bad-tag diagnostic; the event's result
is not written to any descriptor — the descriptor array is returned exactly
as it was — and no further event is processed. -/
theorem reap_bad_tag_fatal_no_write (num_files r : Nat) (evs : List (Except Int CQE))
    (files : List RIOVec) (seen : Nat) (log : List LogEntry) (cqe : CQE)
    (h : num_files ≤ cqe.user_data) :
    reap_go num_files (r + 1) (.ok cqe :: evs) files seen log
      = ⟨files, seen, log ++ [.badTag cqe.user_data], .fatal⟩ := by
  have hnot : ¬ cqe.user_data < num_files := by omega
  simp [reap_go, hnot]

/-- Witness for C5: a single-request batch receiving a completion tagged 7. -/
theorem reap_bad_tag_fatal_no_write_witness :
    reap_go 1 1 [.ok ⟨7, 4⟩] [⟨"v", 3, 2, 0, 2, 0⟩] 0 []
      = ⟨[⟨"v", 3, 2, 0, 2, 0⟩], 0, [.badTag 7], .fatal⟩ :=
  reap_bad_tag_fatal_no_write 1 0 [] [⟨"v", 3, 2, 0, 2, 0⟩] 0 [] ⟨7, 4⟩ (by decide)

/-- Claim C6: the signed result code of a completion is interpreted by exactly
one rule.  For an in-range tag, a non-negative `res` is recorded on the
resolved descriptor as `fOutBytes = res` (the loop then continues, the event
marked seen), while a negative `res` is a read failure whose reported system
error code is the magnitude `-res`, attributed to that descriptor's index;
`record_out` writes the byte count into the resolved descriptor's
`fOutBytes` field and changes nothing else of it. -/
theorem cqe_res_interpretation (num_files r : Nat) (evs : List (Except Int CQE))
    (files : List RIOVec) (seen : Nat) (log : List LogEntry) (cqe : CQE)
    (h : cqe.user_data < num_files) :
    (0 ≤ cqe.res →
      reap_go num_files (r + 1) (.ok cqe :: evs) files seen log
        = reap_go num_files r evs (record_out files cqe.user_data cqe.res.toNat)
            (seen + 1) (log ++ [.readOk cqe.res.toNat cqe.user_data])) ∧
    (cqe.res < 0 →
      reap_go num_files (r + 1) (.ok cqe :: evs) files seen log
        = ⟨files, seen, log ++ [.readFailed cqe.user_data (-cqe.res)], .fatal⟩) ∧
    (0 ≤ cqe.res → (cqe.res.toNat : Int) = cqe.res) ∧
    (∀ hi : cqe.user_data < files.length,
      (record_out files cqe.user_data cqe.res.toNat)[cqe.user_data]?
        = some { files.get ⟨cqe.user_data, hi⟩ with fOutBytes := cqe.res.toNat }) := by
  refine ⟨?_, ?_, ?_, ?_⟩
  · intro hres
    have hneg : ¬ cqe.res < 0 := by omega
    simp [reap_go, h, hneg]
  · intro hres
    simp [reap_go, h, hres]
  · intro hres
    omega
  · intro hi
    rw [record_out_getElem_self files cqe.user_data cqe.res.toNat hi]
    simp [List.getElem?_eq_getElem hi, List.get_eq_getElem]

/-- Witness for C6: a completion with tag 1 and result 5 in a batch of two. -/
theorem cqe_res_interpretation_witness :
    reap_go 2 2 [.ok ⟨1, 5⟩] [⟨"x", 3, 9, 0, 9, 0⟩, ⟨"y", 4, 9, 0, 9, 0⟩] 0 []
      = reap_go 2 1 [] (record_out [⟨"x", 3, 9, 0, 9, 0⟩, ⟨"y", 4, 9, 0, 9, 0⟩] 1 5) 1
          [.readOk 5 1] ∧
    ((5 : Int).toNat : Int) = 5 :=
  ⟨(cqe_res_interpretation 2 1 [] [⟨"x", 3, 9, 0, 9, 0⟩, ⟨"y", 4, 9, 0, 9, 0⟩]
      0 [] ⟨1, 5⟩ (by decide)).1 (by decide),
   (cqe_res_interpretation 2 1 [] [⟨"x", 3, 9, 0, 9, 0⟩, ⟨"y", 4, 9, 0, 9, 0⟩]
      0 [] ⟨1, 5⟩ (by decide)).2.2.1 (by decide)⟩

/-- Claim C10: every successfully constructed descriptor describes a
whole-file read: `fOffset = 0`, `fSize` equals the size reported by `fstat`
on the freshly opened handle, the buffer is passed to `malloc` with exactly
that size, and `fOutBytes` starts at the sentinel `0`.  Consequently, for a
zero-length file the successful outcome (recording 0 bytes read) leaves the
descriptor byte-for-byte identical to its pre-completion sentinel state. -/
theorem make_riovec_whole_file (env : FSEnv) (pathname : String) (rd : RIOVec)
    (h : make_riovec env pathname = some rd) :
    rd.pathname = pathname ∧
    rd.fd = env.openFd pathname ∧
    0 ≤ rd.fd ∧
    env.statSize rd.fd = some rd.fSize ∧
    env.mallocOk rd.fSize = true ∧
    rd.fOffset = 0 ∧
    rd.bufSize = rd.fSize ∧
    rd.fOutBytes = 0 ∧
    (rd.fSize = 0 → record_out [rd] 0 0 = [rd]) := by
  by_cases hfd : env.openFd pathname < 0
  · simp [make_riovec, hfd] at h
  · cases hstat : env.statSize (env.openFd pathname) with
    | none => simp [make_riovec, hfd, hstat] at h
    | some s =>
      by_cases hm : env.mallocOk s = true
      · simp [make_riovec, hfd, hstat, hm] at h
        subst h
        exact ⟨rfl, rfl, Int.not_lt.mp hfd, hstat, hm, rfl, rfl, rfl, fun _ => rfl⟩
      · simp [make_riovec, hfd, hstat, hm] at h

/-- Witness for C10: a zero-length file yields offset 0, buffer size 0,
sentinel 0, and recording the successful 0-byte outcome is invisible. -/
theorem make_riovec_whole_file_witness :
    ((⟨"z", 7, 0, 0, 0, 0⟩ : RIOVec).fOffset = 0 ∧
      (⟨"z", 7, 0, 0, 0, 0⟩ : RIOVec).fOutBytes = 0) ∧
    record_out [(⟨"z", 7, 0, 0, 0, 0⟩ : RIOVec)] 0 0 = [⟨"z", 7, 0, 0, 0, 0⟩] := by
  have hfull := make_riovec_whole_file ⟨fun _ => 7, fun _ => some 0, fun _ => true⟩
    ("z") ⟨"z", 7, 0, 0, 0, 0⟩ rfl
  exact ⟨⟨hfull.2.2.2.2.2.1, hfull.2.2.2.2.2.2.2.1⟩, hfull.2.2.2.2.2.2.2.2 rfl⟩

/-- Claim C1 (evaluation at the failing input): in a batch of two requests
where the first completion to arrive carries tag 0 with `res = -5` and the
sibling's completion (tag 1, `res = 10`) is still pending, `reap_reads`
returns 1 at the first event: nothing is recorded on any descriptor, zero
events are marked seen, and the sibling's completion is never processed —
the single failed read aborts the whole drain instead of being recorded
per-descriptor and non-fatal. -/
theorem reap_negative_res_aborts_batch :
    reap_reads [⟨"a", 3, 4, 0, 4, 0⟩, ⟨"b", 4, 6, 0, 6, 0⟩]
      [.ok ⟨0, -5⟩, .ok ⟨1, 10⟩] 2
      = ⟨[⟨"a", 3, 4, 0, 4, 0⟩, ⟨"b", 4, 6, 0, 6, 0⟩], 0, [.readFailed 0 5], .fatal⟩ := by
  decide

/-- Claim C2 (evaluation at the failing input): in a batch of one request
whose completion carries `res = -13`, `reap_reads` returns 1 with `seen = 0`
— the delivered event is never marked consumed via `io_uring_cqe_seen` —
and the descriptor is left exactly in its pending state (`fOutBytes` still
the sentinel 0, no error recorded anywhere; `RIOVec` has no error field at
all), contradicting the claim that every event is consumed and every
descriptor reaches a terminal state on every code path. -/
theorem reap_error_return_leaves_descriptors_unresolved :
    reap_reads [⟨"f", 5, 9, 0, 9, 0⟩] [.ok ⟨0, -13⟩] 1
      = ⟨[⟨"f", 5, 9, 0, 9, 0⟩], 0, [.readFailed 0 13], .fatal⟩ := by
  decide

/-- Claim C3 (evaluation at the failing input): with two staged requests and
`io_uring_submit` returning 1 (one entry accepted, `0 < 1 < 2`), `main` does
not treat the short submission as fatal — the check is only `ret <= 0` — and
proceeds to `reap_reads`, which waits for two completions; only one ever
arrives, so the drain blocks forever (`main_run` yields `none` instead of an
error exit). -/
theorem main_short_submit_proceeds_to_wait :
    main_run
      { argPaths := ["a", "b"],
        ringInitRet := 0, probeOk := true, readSupported := true, callocOk := true,
        fs := ⟨fun _ => 3, fun _ => some 4, fun _ => true⟩,
        submitRet := 1,
        events := [.ok ⟨0, 4⟩] } = none := by
  decide

/-- The success condition for the whole pipeline of `main`: arguments
present, ring created, plain read supported by the probe, descriptor array
allocated, every descriptor constructed, staging succeeded, the batched
submit accepted a positive count, and the drain loop returned normally. -/
def pipeline_success (env : Env) : Prop :=
  env.argPaths ≠ [] ∧
  env.ringInitRet = 0 ∧
  env.probeOk = true ∧
  env.readSupported = true ∧
  env.callocOk = true ∧
  ∃ files, (build_riovecs env.fs env.argPaths 0).2 = .ok files ∧
    (prep_reads (io_uring_queue_init env.argPaths.length) files).2 = 0 ∧
    0 < env.submitRet ∧
    (reap_reads files env.events env.argPaths.length).exit = .normal

/-- Claim C8: for every invocation, the process exit code is 0 exactly when
the whole pipeline succeeds, and it is 1 exactly when the run terminates
without full success — i.e. whenever any fatal condition fires: missing
arguments, ring-creation failure, probe failure or unsupported read,
open/stat/allocation failure, non-positive submit return, or a fatal
condition while draining.  (`main_run env = none` is the one non-exiting
case: the drain loop blocked forever.) -/
theorem main_exit_code_contract (env : Env) :
    (main_run env = some 0 ↔ pipeline_success env) ∧
    (main_run env = some 1 ↔ (¬ pipeline_success env ∧ main_run env ≠ none)) := by
  by_cases h1 : env.argPaths.isEmpty
  · have h1' : env.argPaths = [] := List.isEmpty_iff.mp h1
    simp [main_run, pipeline_success, h1, h1']
  · have h1' : env.argPaths ≠ [] := by
      intro hc
      rw [hc] at h1
      exact h1 rfl
    by_cases h2 : env.ringInitRet = 0
    · by_cases h3 : env.probeOk = true
      · by_cases h4 : env.readSupported = true
        · by_cases h5 : env.callocOk = true
          · cases hb : (build_riovecs env.fs env.argPaths 0).2 with
            | error k =>
              simp [main_run, pipeline_success, h1, h1', h2, h3, h4, h5, hb]
            | ok files =>
              by_cases h6 : (prep_reads (io_uring_queue_init env.argPaths.length) files).2 = 0
              · by_cases h7 : env.submitRet ≤ 0
                · simp [main_run, pipeline_success, h1, h1', h2, h3, h4, h5, hb,
                    h6, h7, Int.not_lt.mpr h7]
                · cases hr : (reap_reads files env.events env.argPaths.length).exit with
                  | normal =>
                    simp [main_run, pipeline_success, h1, h1', h2, h3, h4, h5, hb,
                      h6, h7, Int.not_le.mp h7, hr]
                  | fatal =>
                    simp [main_run, pipeline_success, h1, h1', h2, h3, h4, h5, hb,
                      h6, h7, hr]
                  | blocked =>
                    simp [main_run, pipeline_success, h1, h1', h2, h3, h4, h5, hb,
                      h6, h7, hr]
              · simp [main_run, pipeline_success, h1, h1', h2, h3, h4, h5, hb, h6]
          · simp [main_run, pipeline_success, h1, h2, h3, h4, h5]
        · simp [main_run, pipeline_success, h1, h2, h3, h4]
      · simp [main_run, pipeline_success, h1, h2, h3]
    · simp [main_run, pipeline_success, h1, h2]

/-- Claim C7: if opening one file fails during batch preparation, the failure
is fatal to the whole batch.  The construction loop attempts exactly the
paths up to and including the failing one — no later descriptor is processed
— the loop stops with the failing index, and (whatever the remaining
oracles) `main` exits with code 1 rather than skipping the failed open. -/
theorem open_failure_aborts_batch (env : FSEnv) (pre : List String) (p : String)
    (post : List String)
    (hpre : ∀ q ∈ pre, ∃ rd, make_riovec env q = some rd)
    (hopen : env.openFd p < 0) :
    build_riovecs env (pre ++ p :: post) 0 = (pre ++ [p], .error pre.length) ∧
    (∀ e : Env, e.fs = env → e.argPaths = pre ++ p :: post →
      e.ringInitRet = 0 → e.probeOk = true → e.readSupported = true →
      e.callocOk = true → main_run e = some 1) := by
  have hb := build_riovecs_open_fail env p post hopen pre 0
  constructor
  · simpa using hb hpre
  · intro e hfs hargs h1 h2 h3 h4
    have hne : (pre ++ p :: post).isEmpty = false := by
      cases pre <;> rfl
    have hb0 := hb hpre
    unfold main_run
    rw [hargs, hfs]
    simp [hne, h1, h2, h3, h4, hb0]

/-- Witness for C7: opening the second of three paths fails; only the first
two paths are attempted and the loop reports failing index 1. -/
theorem open_failure_aborts_batch_witness :
    build_riovecs ⟨fun s => if s = "bad" then -1 else 3, fun _ => some 2, fun _ => true⟩
      ["good", "bad", "later"] 0 = (["good", "bad"], .error 1) :=
  (open_failure_aborts_batch
    ⟨fun s => if s = "bad" then -1 else 3, fun _ => some 2, fun _ => true⟩
    ["good"] ("bad") ["later"]
    (by
      intro q hq
      simp only [List.mem_singleton] at hq
      subst hq
      exact ⟨⟨"good", 3, 2, 0, 2, 0⟩, rfl⟩)
    (by decide)).1
